import Mathlib

/-!
Verification of the filter-and-aggregate data pipeline of
`src/main_v2.py` (Global Cybersecurity Threats Explorer Dashboard).

The embedding is shallow: a pandas DataFrame of incident records becomes a
`List Row`; the boolean-mask filter of `sidebar_filters` becomes `List.filter`;
a pandas `groupby` becomes a map over the distinct key values present
(`List.dedup`, first-occurrence order — every property proved below is
insensitive to the order in which groups are listed before the explicit
value sorts), with each group the sublist of rows carrying that key;
`sort_values(ascending=False)` and `nlargest(10)` become a stable sort
descending on the aggregated value (pandas `nlargest` keeps first on ties,
i.e. is a stable descending sort followed by a prefix); `pivot` becomes a
duplicate-key check producing an optional matrix; monetary and time values
are modelled as rationals.
-/

/-- One Incident Record: a row of the loaded table, restricted to the columns
`src/main_v2.py` uses (Year, Country, Attack Type, Target Industry,
Financial Loss (in Million $), Security Vulnerability Type,
Defense Mechanism Used, Incident Resolution Time (in Hours)). -/
structure Row where
  year : Int
  country : String
  attackType : String
  targetIndustry : String
  finLoss : Rat
  vulnType : String
  defense : String
  resTime : Rat
deriving DecidableEq, Repr

/-- Row predicate of the filter expression at `src/main_v2.py` line 65:
`df.Year.between(*year_range) & df.Country.isin(countries)`.
pandas `between` is inclusive on both endpoints; `isin` is membership. -/
def rowMatches (minYear maxYear : Int) (countries : List String) (r : Row) : Bool :=
  decide (minYear ≤ r.year) && decide (r.year ≤ maxYear) && countries.contains r.country

/-- The filter operation of `sidebar_filters` (`src/main_v2.py` lines 50-65):
keeps exactly the rows whose Year lies in the selected closed range and whose
Country is among the selected countries. -/
def sidebar_filters (df : List Row) (minYear maxYear : Int)
    (countries : List String) : List Row :=
  df.filter (rowMatches minYear maxYear countries)

/-- The distinct key values present in a table, one per pandas `groupby` group. -/
def groupKeys {κ : Type} [DecidableEq κ] (key : Row → κ) (l : List Row) : List κ :=
  (l.map key).dedup

/-- The rows of the `groupby` group with key value `k`. -/
def groupRows {κ : Type} [DecidableEq κ] (key : Row → κ) (l : List Row) (k : κ) :
    List Row :=
  l.filter (fun r => decide (key r = k))

/-- pandas `groupby(key)[val].sum()`: one entry per distinct key present, carrying
the sum of `val` over that group. -/
def groupSum {κ : Type} [DecidableEq κ] (key : Row → κ) (val : Row → Rat)
    (l : List Row) : List (κ × Rat) :=
  (groupKeys key l).map (fun k => (k, ((groupRows key l k).map val).sum))

/-- pandas `groupby(key)[val].mean()`: one entry per distinct key present, carrying
the arithmetic mean of `val` over that group. -/
def groupMean {κ : Type} [DecidableEq κ] (key : Row → κ) (val : Row → Rat)
    (l : List Row) : List (κ × Rat) :=
  (groupKeys key l).map
    (fun k => (k, ((groupRows key l k).map val).sum / ((groupRows key l k).length : Rat)))

/-- Stable sort of key-value pairs, descending on the value: the embedding of
`sort_values(ascending=False)` and of the ordering underlying `nlargest`. -/
def sortValsDesc {κ : Type} (l : List (κ × Rat)) : List (κ × Rat) :=
  l.insertionSort (fun a b => b.2 ≤ a.2)

/-- Summary table of `plot_loss_by_country` (`src/main_v2.py` lines 70-77):
group by Country, sum Financial Loss, sort descending by the summed loss. -/
def loss_by_country (subset : List Row) : List (String × Rat) :=
  sortValsDesc (groupSum (fun r => r.country) (fun r => r.finLoss) subset)

/-- Summary table of `plot_avg_loss_by_attack` (`src/main_v2.py` lines 91-97):
group by Attack Type, mean Financial Loss. -/
def avg_loss_by_attack (subset : List Row) : List (String × Rat) :=
  groupMean (fun r => r.attackType) (fun r => r.finLoss) subset

/-- The grouped means feeding `nlargest` in `plot_top_country_industry`
(`src/main_v2.py` lines 108-111): group by the (Country, Target Industry) pair,
mean Financial Loss per pair. -/
def country_industry_means (subset : List Row) : List ((String × String) × Rat) :=
  groupMean (fun r => (r.country, r.targetIndustry)) (fun r => r.finLoss) subset

/-- Summary table of `plot_top_country_industry` (`src/main_v2.py` lines 107-114):
the grouped means, `nlargest(10)` = stable descending sort then first 10. -/
def top_country_industry (subset : List Row) : List ((String × String) × Rat) :=
  (sortValsDesc (country_industry_means subset)).take 10

/-- The grouped means feeding the pivot in `plot_resolution_heatmap`
(`src/main_v2.py` lines 130-136): group by the
(Security Vulnerability Type, Defense Mechanism Used) pair, mean
Incident Resolution Time per pair. -/
def rtGroup (subset : List Row) : List ((String × String) × Rat) :=
  groupMean (fun r => (r.vulnType, r.defense)) (fun r => r.resTime) subset

/-- Row labels of the pivoted heatmap matrix: the distinct Security Vulnerability
Types present in the subset. -/
def heatRowLabels (subset : List Row) : List String :=
  (subset.map (fun r => r.vulnType)).dedup

/-- Column labels of the pivoted heatmap matrix: the distinct Defense Mechanisms
present in the subset. -/
def heatColLabels (subset : List Row) : List String :=
  (subset.map (fun r => r.defense)).dedup

/-- One cell of the pivoted heatmap matrix (`src/main_v2.py` lines 137-141):
the value of the grouped-mean entry for the pair, `none` (NaN in pandas) when
the pair has no entry. -/
def heatCell (subset : List Row) (v d : String) : Option Rat :=
  ((rtGroup subset).find? (fun p => decide (p.1 = (v, d)))).map Prod.snd

/-- The rows of the subset carrying a given (vulnerability, defense) pair. -/
def pairRows (subset : List Row) (v d : String) : List Row :=
  subset.filter (fun r => decide (r.vulnType = v) && decide (r.defense = d))

/-- pandas `DataFrame.pivot` (`src/main_v2.py` lines 137-141) raises `ValueError`
when the (index, columns) pairs of the input contain duplicates; this is modelled
as `none`.  On success it yields the matrix: row labels, column labels, and the
cell lookup. -/
def pivotRT (rt : List ((String × String) × Rat)) :
    Option (List String × List String × (String → String → Option Rat)) :=
  if (rt.map Prod.fst).Nodup then
    some ((rt.map (fun p => p.1.1)).dedup, (rt.map (fun p => p.1.2)).dedup,
      fun v d => (rt.find? (fun p => decide (p.1 = (v, d)))).map Prod.snd)
  else none

/-- `CACHE_TTL = 3600` (`src/main_v2.py` line 31). -/
def CACHE_TTL : Nat := 3600

/-- Modelled from the spec: the caching wrapper `@st.cache_data(ttl=CACHE_TTL)`
around `load_data` (`src/main_v2.py` lines 33-37) is streamlit library code not
present under `src/`.  Per spec section 4.1 the cache maps the `url` argument
value to the fetched result and the time it was fetched; an association list
models it. -/
abbrev Cache (α : Type) : Type := List (String × α × Nat)

/-- Modelled from the spec: one `load(url)` call at time `now` against cache `c`
(spec section 4.1): a network request (`fetch`) is performed unless a cached
result younger than `ttl` exists for the same `url`; on a miss the fresh result
replaces any stale entry for that url.  Returns the value, the updated cache,
and whether a network request was issued. -/
def load {α : Type} (fetch : String → α) (ttl : Nat) (c : Cache α)
    (url : String) (now : Nat) : α × Cache α × Bool :=
  match c.find? (fun e => e.1 == url) with
  | some e =>
      if now - e.2.2 < ttl then (e.2.1, c, false)
      else (fetch url, (url, fetch url, now) :: c.filter (fun e2 => e2.1 != url), true)
  | none => (fetch url, (url, fetch url, now) :: c, true)

/-- A sample incident record for concrete witnesses. -/
def mkRow (y : Int) (c a i : String) (fl : Rat) (v d : String) (rt : Rat) : Row :=
  ⟨y, c, a, i, fl, v, d, rt⟩

/-- A small concrete table used by the witnesses (the spec section 8 example rows). -/
def sampleDf : List Row :=
  [mkRow 2020 "USA" "Phishing" "Finance" 5 "Zero-day" "Firewall" 12,
   mkRow 2020 "USA" "DDoS" "Retail" 3 "Unpatched" "VPN" 8,
   mkRow 2021 "India" "Malware" "Health" 10 "Zero-day" "Firewall" 20]

/-- C1: for every table and every valid filter input (`minYear ≤ maxYear`), the
filter returns exactly the rows whose Year lies in `[minYear, maxYear]` and whose
Country is selected: the result is a sublist of the input (hence no larger and in
the same relative order), every returned row satisfies both predicates, and every
row value satisfying both predicates keeps its full multiplicity. -/
theorem sidebar_filters_spec (df : List Row) (minYear maxYear : Int)
    (countries : List String) (h : minYear ≤ maxYear) :
    (sidebar_filters df minYear maxYear countries).Sublist df ∧
    (sidebar_filters df minYear maxYear countries).length ≤ df.length ∧
    (∀ r ∈ sidebar_filters df minYear maxYear countries,
      minYear ≤ r.year ∧ r.year ≤ maxYear ∧ r.country ∈ countries) ∧
    (∀ r : Row, minYear ≤ r.year → r.year ≤ maxYear → r.country ∈ countries →
      (sidebar_filters df minYear maxYear countries).count r = df.count r) := by
  refine ⟨List.filter_sublist df, (List.filter_sublist df).length_le, ?_, ?_⟩
  · intro r hr
    have hm := List.of_mem_filter hr
    simp only [rowMatches, Bool.and_eq_true, decide_eq_true_eq,
      List.elem_iff] at hm
    exact ⟨hm.1.1, hm.1.2, hm.2⟩
  · intro r h1 h2 h3
    apply List.count_filter
    simp only [rowMatches, Bool.and_eq_true, decide_eq_true_eq,
      List.elem_iff]
    exact ⟨⟨h1, h2⟩, h3⟩

/-- Witness for C1 at a concrete input. -/
theorem sidebar_filters_spec_witness :
    (2015 : Int) ≤ 2024 ∧
    ((sidebar_filters sampleDf 2015 2024 ["USA"]).Sublist sampleDf ∧
     (sidebar_filters sampleDf 2015 2024 ["USA"]).length ≤ sampleDf.length ∧
     (∀ r ∈ sidebar_filters sampleDf 2015 2024 ["USA"],
       (2015 : Int) ≤ r.year ∧ r.year ≤ 2024 ∧ r.country ∈ ["USA"]) ∧
     (∀ r : Row, (2015 : Int) ≤ r.year → r.year ≤ 2024 → r.country ∈ ["USA"] →
       (sidebar_filters sampleDf 2015 2024 ["USA"]).count r = sampleDf.count r)) :=
  ⟨by decide, sidebar_filters_spec sampleDf 2015 2024 ["USA"] (by decide)⟩

/-- C6: filtering with an empty countries selection, or with an inverted year
range, returns the empty table (and, being a total function, raises nothing). -/
theorem sidebar_filters_empty_cases (df : List Row) (minYear maxYear : Int)
    (countries : List String) :
    sidebar_filters df minYear maxYear [] = [] ∧
    (maxYear < minYear → sidebar_filters df minYear maxYear countries = []) := by
  constructor
  · apply List.filter_eq_nil_iff.mpr
    intro r _
    simp [rowMatches]
  · intro hlt
    apply List.filter_eq_nil_iff.mpr
    intro r _
    simp only [rowMatches, Bool.and_eq_true, decide_eq_true_eq, not_and]
    intro hy _
    omega

/-- Witness for C6 at a concrete input. -/
theorem sidebar_filters_empty_cases_witness :
    sidebar_filters sampleDf 2015 2024 [] = [] ∧
    ((2014 : Int) < 2025 ∧ sidebar_filters sampleDf 2025 2014 ["USA"] = []) :=
  ⟨(sidebar_filters_empty_cases sampleDf 2015 2024 ["USA"]).1,
   by decide,
   (sidebar_filters_empty_cases sampleDf 2025 2014 ["USA"]).2 (by decide)⟩

/-- C7: filtering is idempotent: re-filtering the filtered subset with the same
bounds and country selection returns the subset unchanged. -/
theorem sidebar_filters_idempotent (df : List Row) (minYear maxYear : Int)
    (countries : List String) :
    sidebar_filters (sidebar_filters df minYear maxYear countries)
        minYear maxYear countries =
      sidebar_filters df minYear maxYear countries := by
  unfold sidebar_filters
  rw [List.filter_filter]
  apply List.filter_congr
  intro r _
  exact Bool.and_self (rowMatches minYear maxYear countries r)

/-- Splitting the sum of `f` over a list by a boolean predicate. -/
theorem sum_map_filter_split (p : Row → Bool) (f : Row → Rat) (l : List Row) :
    ((l.filter p).map f).sum + ((l.filter (fun r => !p r)).map f).sum
      = (l.map f).sum := by
  induction l with
  | nil => simp
  | cons a l ih =>
    cases hpa : p a with
    | true =>
      simp only [List.filter_cons, hpa, Bool.not_true, Bool.false_eq_true,
        if_true, if_false, List.map_cons, List.sum_cons]
      rw [add_assoc, ih]
    | false =>
      simp only [List.filter_cons, hpa, Bool.not_false, Bool.false_eq_true,
        if_true, if_false, List.map_cons, List.sum_cons]
      rw [← add_assoc, add_comm (((l.filter p).map f).sum) (f a), add_assoc, ih]

/-- Summing one group total per distinct key recovers the total sum: the groups
for a duplicate-free key list covering the table partition the table. -/
theorem sum_over_groups {κ : Type} [DecidableEq κ] (key : Row → κ) (f : Row → Rat) :
    ∀ (keys : List κ) (l : List Row), keys.Nodup → (∀ r ∈ l, key r ∈ keys) →
      (keys.map (fun k => ((l.filter (fun r => decide (key r = k))).map f).sum)).sum
        = (l.map f).sum := by
  intro keys
  induction keys with
  | nil =>
    intro l _ hmem
    cases l with
    | nil => simp
    | cons a t => exact absurd (hmem a (List.mem_cons_self a t)) (List.not_mem_nil _)
  | cons k ks ih =>
    intro l hnd hmem
    have hknotks : k ∉ ks := (List.nodup_cons.mp hnd).1
    have htail : ∀ k2 ∈ ks,
        l.filter (fun r => decide (key r = k2))
          = (l.filter (fun r => !decide (key r = k))).filter
              (fun r => decide (key r = k2)) := by
      intro k2 hk2
      rw [List.filter_filter]
      apply List.filter_congr
      intro r _
      by_cases h : key r = k2
      · have hne : key r ≠ k := fun hk => hknotks (hk ▸ h ▸ hk2)
        rw [decide_eq_true h, decide_eq_false hne]
        rfl
      · simp [h]
    have hcover : ∀ r ∈ l.filter (fun r => !decide (key r = k)), key r ∈ ks := by
      intro r hr
      have h1 := List.of_mem_filter hr
      have h2 := hmem r (List.mem_of_mem_filter hr)
      simp only [Bool.not_eq_true', decide_eq_false_iff_not] at h1
      exact (List.mem_cons.mp h2).resolve_left h1
    have hihts := ih (l.filter (fun r => !decide (key r = k)))
      (List.nodup_cons.mp hnd).2 hcover
    have hmapeq :
        List.map (fun k2 => ((l.filter (fun r => decide (key r = k2))).map f).sum) ks
          = List.map (fun k2 =>
              (((l.filter (fun r => !decide (key r = k))).filter
                  (fun r => decide (key r = k2))).map f).sum) ks :=
      List.map_congr_left (fun k2 hk2 => by rw [htail k2 hk2])
    simp only [List.map_cons, List.sum_cons]
    rw [hmapeq, hihts]
    exact sum_map_filter_split (fun r => decide (key r = k)) f l

/-- The aggregated-value column of `groupSum` sums to the total of `val` over
the table. -/
theorem groupSum_total {κ : Type} [DecidableEq κ] (key : Row → κ) (val : Row → Rat)
    (l : List Row) :
    ((groupSum key val l).map Prod.snd).sum = (l.map val).sum := by
  unfold groupSum groupRows
  rw [List.map_map]
  exact sum_over_groups key val (groupKeys key l) l (List.nodup_dedup _)
    (fun r hr => List.mem_dedup.mpr (List.mem_map_of_mem key hr))

/-- `sortValsDesc` permutes its input. -/
theorem sortValsDesc_perm {κ : Type} (l : List (κ × Rat)) :
    (sortValsDesc l).Perm l :=
  List.perm_insertionSort _ l

/-- `sortValsDesc` output is descending on the value column. -/
theorem sortValsDesc_sorted {κ : Type} (l : List (κ × Rat)) :
    (sortValsDesc l).Pairwise (fun a b => b.2 ≤ a.2) := by
  have h1 : IsTotal (κ × Rat) (fun a b : κ × Rat => b.2 ≤ a.2) :=
    ⟨fun a b => le_total b.2 a.2⟩
  have h2 : IsTrans (κ × Rat) (fun a b : κ × Rat => b.2 ≤ a.2) :=
    ⟨fun a b c hab hbc => le_trans hbc hab⟩
  exact List.sorted_insertionSort _ l

/-- C2: the value column of the "Loss by Country" summary sums to the total
Financial Loss of the filtered subset; the summary is sorted descending on the
summed loss; and it has exactly one entry per distinct country present. -/
theorem loss_by_country_spec (subset : List Row) :
    ((loss_by_country subset).map Prod.snd).sum = (subset.map (fun r => r.finLoss)).sum ∧
    (loss_by_country subset).Pairwise (fun a b => b.2 ≤ a.2) ∧
    ((loss_by_country subset).map Prod.fst).Nodup ∧
    (∀ c : String, c ∈ (loss_by_country subset).map Prod.fst ↔
      ∃ r ∈ subset, r.country = c) := by
  have hperm : (loss_by_country subset).Perm
      (groupSum (fun r => r.country) (fun r => r.finLoss) subset) :=
    sortValsDesc_perm _
  have hkeys : ((groupSum (fun r => r.country) (fun r => r.finLoss) subset).map
      Prod.fst) = groupKeys (fun r => r.country) subset := by
    unfold groupSum
    rw [List.map_map]
    exact List.map_id _
  have hkeysperm := hperm.map Prod.fst
  refine ⟨?_, sortValsDesc_sorted _, ?_, ?_⟩
  · rw [(hperm.map Prod.snd).sum_eq]
    exact groupSum_total _ _ subset
  · rw [hkeysperm.nodup_iff, hkeys]
    exact List.nodup_dedup _
  · intro c
    rw [hkeysperm.mem_iff, hkeys]
    unfold groupKeys
    rw [List.mem_dedup, List.mem_map]

/-- Any input element missing from the first `n` entries of the descending sort
is bounded above (on the value column) by every element of that prefix. -/
theorem sortValsDesc_take_ge {κ : Type} (l : List (κ × Rat)) (n : Nat)
    (x y : κ × Rat) (hx : x ∈ (sortValsDesc l).take n) (hy : y ∈ l)
    (hynot : y ∉ (sortValsDesc l).take n) : y.2 ≤ x.2 := by
  have hsorted : ((sortValsDesc l).take n ++ (sortValsDesc l).drop n).Pairwise
      (fun a b => b.2 ≤ a.2) := by
    rw [List.take_append_drop]
    exact sortValsDesc_sorted l
  have hys : y ∈ (sortValsDesc l).take n ++ (sortValsDesc l).drop n := by
    rw [List.take_append_drop]
    exact (sortValsDesc_perm l).mem_iff.mpr hy
  have hydrop : y ∈ (sortValsDesc l).drop n :=
    (List.mem_append.mp hys).resolve_left hynot
  exact (List.pairwise_append.mp hsorted).2.2 x hx y hydrop

/-- C3: the "Top Country–Industry" summary has at most 10 entries, and the mean
of every entry it returns is at least the mean of every (Country, Target
Industry) pair of the filtered subset whose pair it does not return. -/
theorem top_country_industry_spec (subset : List Row) :
    (top_country_industry subset).length ≤ 10 ∧
    (∀ x ∈ top_country_industry subset, ∀ y ∈ country_industry_means subset,
      y.1 ∉ (top_country_industry subset).map Prod.fst → y.2 ≤ x.2) := by
  constructor
  · exact List.length_take_le 10 _
  · intro x hx y hy hynot
    exact sortValsDesc_take_ge (country_industry_means subset) 10 x y hx hy
      (fun hc => hynot (List.mem_map_of_mem Prod.fst hc))

/-- A concrete table with eleven distinct (Country, Target Industry) pairs. -/
def elevenPairs : List Row :=
  [mkRow 2020 "C01" "A" "I" 11 "V" "D" 1,
   mkRow 2020 "C02" "A" "I" 10 "V" "D" 1,
   mkRow 2020 "C03" "A" "I" 9 "V" "D" 1,
   mkRow 2020 "C04" "A" "I" 8 "V" "D" 1,
   mkRow 2020 "C05" "A" "I" 7 "V" "D" 1,
   mkRow 2020 "C06" "A" "I" 6 "V" "D" 1,
   mkRow 2020 "C07" "A" "I" 5 "V" "D" 1,
   mkRow 2020 "C08" "A" "I" 4 "V" "D" 1,
   mkRow 2020 "C09" "A" "I" 3 "V" "D" 1,
   mkRow 2020 "C10" "A" "I" 2 "V" "D" 1,
   mkRow 2020 "C11" "A" "I" 1 "V" "D" 1]

/-- Witness for C3 at a concrete input with an excluded pair. -/
theorem top_country_industry_spec_witness :
    (top_country_industry elevenPairs).length ≤ 10 ∧
    ((("C01", "I"), (11 : Rat)) ∈ top_country_industry elevenPairs ∧
     (("C11", "I"), (1 : Rat)) ∈ country_industry_means elevenPairs ∧
     ("C11", "I") ∉ (top_country_industry elevenPairs).map Prod.fst ∧
     (1 : Rat) ≤ 11) :=
  ⟨(top_country_industry_spec elevenPairs).1,
   by with_unfolding_all decide, by with_unfolding_all decide,
   by with_unfolding_all decide,
   (top_country_industry_spec elevenPairs).2 (("C01", "I"), (11 : Rat))
     (by with_unfolding_all decide)
     (("C11", "I"), (1 : Rat)) (by with_unfolding_all decide)
     (by with_unfolding_all decide)⟩

/-- C10: the "Top Country–Industry" summary has exactly
min(10, number of distinct (Country, Target Industry) pairs in the subset)
entries, and when the subset has at most 10 distinct pairs every pair's entry
is returned. -/
theorem top_country_industry_count (subset : List Row) :
    (top_country_industry subset).length
      = min 10 ((subset.map (fun r => (r.country, r.targetIndustry))).dedup).length ∧
    (((subset.map (fun r => (r.country, r.targetIndustry))).dedup).length ≤ 10 →
      ∀ y ∈ country_industry_means subset, y ∈ top_country_industry subset) := by
  have hlen : (sortValsDesc (country_industry_means subset)).length
      = ((subset.map (fun r => (r.country, r.targetIndustry))).dedup).length := by
    rw [sortValsDesc, List.length_insertionSort, country_industry_means, groupMean,
      List.length_map]
    rfl
  constructor
  · rw [top_country_industry, List.length_take, hlen]
  · intro hle y hy
    have htake : (sortValsDesc (country_industry_means subset)).take 10
        = sortValsDesc (country_industry_means subset) :=
      List.take_of_length_le (by rw [hlen]; exact hle)
    rw [top_country_industry, htake]
    exact (sortValsDesc_perm _).mem_iff.mpr hy

/-- Witness for C10 at a concrete input with fewer than 10 distinct pairs. -/
theorem top_country_industry_count_witness :
    (top_country_industry sampleDf).length
      = min 10 ((sampleDf.map (fun r => (r.country, r.targetIndustry))).dedup).length ∧
    (((sampleDf.map (fun r => (r.country, r.targetIndustry))).dedup).length ≤ 10 ∧
     (("USA", "Finance"), (5 : Rat)) ∈ country_industry_means sampleDf ∧
     (("USA", "Finance"), (5 : Rat)) ∈ top_country_industry sampleDf) :=
  ⟨(top_country_industry_count sampleDf).1,
   by decide, by with_unfolding_all decide,
   (top_country_industry_count sampleDf).2 (by decide)
     (("USA", "Finance"), (5 : Rat)) (by with_unfolding_all decide)⟩

/-- Searching a keyed map for a key finds the entry exactly when the key occurs. -/
theorem find?_keyed_map {κ β : Type} [DecidableEq κ] (g : κ → β) (keys : List κ)
    (k : κ) :
    (keys.map (fun k2 => (k2, g k2))).find? (fun p => decide (p.1 = k))
      = if k ∈ keys then some (k, g k) else none := by
  induction keys with
  | nil => simp
  | cons k2 ks ih =>
    by_cases h : k2 = k
    · subst h
      simp [List.find?_cons]
    · rw [List.map_cons, List.find?_cons_of_neg _ (by simp [h]), ih]
      by_cases hk : k ∈ ks
      · rw [if_pos hk, if_pos (List.mem_cons_of_mem k2 hk)]
      · rw [if_neg hk, if_neg (fun hm => hk ((List.mem_cons.mp hm).resolve_left
          (fun he => h he.symm)))]

/-- The group of the (vulnerability, defense) pair key is `pairRows`. -/
theorem groupRows_pair_eq_pairRows (subset : List Row) (v d : String) :
    groupRows (fun r => (r.vulnType, r.defense)) subset (v, d) = pairRows subset v d := by
  unfold groupRows pairRows
  apply List.filter_congr
  intro r _
  by_cases h1 : r.vulnType = v <;> by_cases h2 : r.defense = d <;>
    simp [Prod.ext_iff, h1, h2]

/-- Closed form of a heatmap cell: the mean resolution time over the rows carrying
the pair when the pair occurs, `none` otherwise. -/
theorem heatCell_eq (subset : List Row) (v d : String) :
    heatCell subset v d
      = if (v, d) ∈ (subset.map (fun r => (r.vulnType, r.defense))).dedup
        then some (((pairRows subset v d).map (fun r => r.resTime)).sum
          / ((pairRows subset v d).length : Rat))
        else none := by
  unfold heatCell rtGroup groupMean
  rw [find?_keyed_map]
  by_cases h : (v, d) ∈ groupKeys (fun r => (r.vulnType, r.defense)) subset
  · have h2 : (v, d) ∈ (subset.map (fun r => (r.vulnType, r.defense))).dedup := h
    rw [if_pos h, if_pos h2, Option.map_some', groupRows_pair_eq_pairRows]
  · have h2 : (v, d) ∉ (subset.map (fun r => (r.vulnType, r.defense))).dedup := h
    rw [if_neg h, if_neg h2, Option.map_none']

/-- C4: the heatmap matrix has exactly one row label per distinct Security
Vulnerability Type in the subset and one column label per distinct Defense
Mechanism in the subset; a cell is populated exactly when the
(vulnerability, defense) pair co-occurs in some row of the subset, in which case
it holds the mean Incident Resolution Time over those rows, and is `none`
(empty, not zero) otherwise. -/
theorem resolution_heatmap_spec (subset : List Row) (v d : String) :
    (heatRowLabels subset).Nodup ∧ (heatColLabels subset).Nodup ∧
    (v ∈ heatRowLabels subset ↔ ∃ r ∈ subset, r.vulnType = v) ∧
    (d ∈ heatColLabels subset ↔ ∃ r ∈ subset, r.defense = d) ∧
    ((heatCell subset v d).isSome ↔ ∃ r ∈ subset, r.vulnType = v ∧ r.defense = d) ∧
    (∀ m : Rat, heatCell subset v d = some m →
      m = ((pairRows subset v d).map (fun r => r.resTime)).sum
            / ((pairRows subset v d).length : Rat)) := by
  have hpair : (v, d) ∈ (subset.map (fun r => (r.vulnType, r.defense))).dedup
      ↔ ∃ r ∈ subset, r.vulnType = v ∧ r.defense = d := by
    rw [List.mem_dedup, List.mem_map]
    constructor
    · rintro ⟨r, hr, he⟩
      exact ⟨r, hr, congrArg Prod.fst he, congrArg Prod.snd he⟩
    · rintro ⟨r, hr, h1, h2⟩
      exact ⟨r, hr, by rw [h1, h2]⟩
  refine ⟨List.nodup_dedup _, List.nodup_dedup _, ?_, ?_, ?_, ?_⟩
  · unfold heatRowLabels
    rw [List.mem_dedup, List.mem_map]
  · unfold heatColLabels
    rw [List.mem_dedup, List.mem_map]
  · rw [heatCell_eq, ← hpair]
    by_cases h : (v, d) ∈ (subset.map (fun r => (r.vulnType, r.defense))).dedup
    · simp [h]
    · simp [h]
  · intro m hm
    rw [heatCell_eq] at hm
    by_cases h : (v, d) ∈ (subset.map (fun r => (r.vulnType, r.defense))).dedup
    · rw [if_pos h] at hm
      exact (Option.some_inj.mp hm).symm
    · rw [if_neg h] at hm
      exact absurd hm (by simp)

/-- Witness for C4 at a concrete input: in `sampleDf` the (Zero-day, Firewall)
pair occurs in two rows with resolution times 12 and 20, so its cell is the
mean 16, while the (Unpatched, Firewall) pair never co-occurs and its cell is
empty. -/
theorem resolution_heatmap_spec_witness :
    heatCell sampleDf "Zero-day" "Firewall" = some 16 ∧
    (16 : Rat) = ((pairRows sampleDf "Zero-day" "Firewall").map
        (fun r => r.resTime)).sum
      / ((pairRows sampleDf "Zero-day" "Firewall").length : Rat) ∧
    ((heatCell sampleDf "Unpatched" "Firewall").isSome ↔
      ∃ r ∈ sampleDf, r.vulnType = "Unpatched" ∧ r.defense = "Firewall") :=
  ⟨by with_unfolding_all decide,
   (resolution_heatmap_spec sampleDf "Zero-day" "Firewall").2.2.2.2.2 16
     (by with_unfolding_all decide),
   (resolution_heatmap_spec sampleDf "Unpatched" "Firewall").2.2.2.2.1⟩

/-- C9: the pivot's duplicate-pair failure branch is unreachable: for every
filtered subset the grouped mean table has no two entries with the same
(Security Vulnerability Type, Defense Mechanism Used) pair, so `pivotRT`
always succeeds on it. -/
theorem rtGroup_pivot_safe (subset : List Row) :
    ((rtGroup subset).map Prod.fst).Nodup ∧
    (pivotRT (rtGroup subset)).isSome = true := by
  have hkeys : (rtGroup subset).map Prod.fst
      = groupKeys (fun r => (r.vulnType, r.defense)) subset := by
    unfold rtGroup groupMean
    rw [List.map_map]
    exact List.map_id _
  have hnd : ((rtGroup subset).map Prod.fst).Nodup := by
    rw [hkeys]
    exact List.nodup_dedup _
  refine ⟨hnd, ?_⟩
  unfold pivotRT
  rw [if_pos hnd]
  rfl

/-- C5: on the empty filtered subset every aggregation returns an empty summary
(the heatmap has no row labels, no column labels, every cell empty, and the
pivot succeeds on the empty grouped table); all four are total functions, so
nothing is raised. -/
theorem empty_subset_aggregations :
    loss_by_country [] = [] ∧ avg_loss_by_attack [] = [] ∧
    top_country_industry [] = [] ∧ rtGroup [] = [] ∧
    heatRowLabels [] = [] ∧ heatColLabels [] = [] ∧
    (∀ v d : String, heatCell [] v d = none) ∧
    (pivotRT (rtGroup [])).isSome = true := by
  refine ⟨rfl, rfl, rfl, rfl, rfl, rfl, fun v d => rfl, rfl⟩

/-- C8: starting from a cold cache, the first `load(url)` call issues a network
request; a second call for the same url whose time differs from the first by
less than the TTL issues none (so the two calls issue exactly one request); a
second call made at or after TTL expiry issues a second request; and the cache
is keyed by the url argument value, so a call for a different url always issues
its own request. -/
theorem load_cache_ttl {α : Type} (fetch : String → α) (url url2 : String)
    (t1 t2 : Nat) :
    (load fetch CACHE_TTL [] url t1).2.2 = true ∧
    (t2 - t1 < CACHE_TTL →
      (load fetch CACHE_TTL (load fetch CACHE_TTL [] url t1).2.1 url t2).2.2
        = false) ∧
    (CACHE_TTL ≤ t2 - t1 →
      (load fetch CACHE_TTL (load fetch CACHE_TTL [] url t1).2.1 url t2).2.2
        = true) ∧
    (url2 ≠ url →
      (load fetch CACHE_TTL (load fetch CACHE_TTL [] url t1).2.1 url2 t2).2.2
        = true) := by
  have hfirst : load fetch CACHE_TTL [] url t1
      = (fetch url, [(url, fetch url, t1)], true) := by
    unfold load
    rfl
  have hsecond : ∀ now : Nat,
      (load fetch CACHE_TTL [(url, fetch url, t1)] url now).2.2
        = if now - t1 < CACHE_TTL then false else true := by
    intro now
    unfold load
    rw [List.find?_cons_of_pos _ (by simp)]
    dsimp only
    by_cases hc : now - t1 < CACHE_TTL
    · rw [if_pos hc, if_pos hc]
    · rw [if_neg hc, if_neg hc]
  refine ⟨by rw [hfirst], ?_, ?_, ?_⟩
  · intro hlt
    rw [hfirst]
    rw [show (fetch url, [(url, fetch url, t1)], true).2.1
      = [(url, fetch url, t1)] from rfl]
    rw [hsecond t2, if_pos hlt]
  · intro hge
    rw [hfirst]
    rw [show (fetch url, [(url, fetch url, t1)], true).2.1
      = [(url, fetch url, t1)] from rfl]
    rw [hsecond t2, if_neg (by omega)]
  · intro hne
    rw [hfirst]
    rw [show (fetch url, [(url, fetch url, t1)], true).2.1
      = [(url, fetch url, t1)] from rfl]
    unfold load
    rw [List.find?_cons_of_neg _
      (by simp only [beq_iff_eq]; exact fun hc => hne hc.symm)]
    rfl

/-- Witness for C8 at concrete inputs: url "a", first call at time 0, an
in-window second call at time 10, an expired second call at time 4000, and a
call for the different url "b". -/
theorem load_cache_ttl_witness :
    (load (fun _ => 0) CACHE_TTL [] "a" 0).2.2 = true ∧
    ((10 : Nat) - 0 < CACHE_TTL ∧
      (load (fun _ => 0) CACHE_TTL
        (load (fun _ => 0) CACHE_TTL [] "a" 0).2.1 "a" 10).2.2 = false) ∧
    (CACHE_TTL ≤ (4000 : Nat) - 0 ∧
      (load (fun _ => 0) CACHE_TTL
        (load (fun _ => 0) CACHE_TTL [] "a" 0).2.1 "a" 4000).2.2 = true) ∧
    (("b" : String) ≠ "a" ∧
      (load (fun _ => 0) CACHE_TTL
        (load (fun _ => 0) CACHE_TTL [] "a" 0).2.1 "b" 10).2.2 = true) :=
  ⟨(load_cache_ttl (fun _ => (0 : Nat)) "a" "b" 0 10).1,
   ⟨by decide, (load_cache_ttl (fun _ => (0 : Nat)) "a" "b" 0 10).2.1 (by decide)⟩,
   ⟨by decide, (load_cache_ttl (fun _ => (0 : Nat)) "a" "b" 0 4000).2.2.1 (by decide)⟩,
   ⟨by decide, (load_cache_ttl (fun _ => (0 : Nat)) "a" "b" 0 10).2.2.2 (by decide)⟩⟩
